import Mathlib

/-!
Shallow embedding of the canvas customizer page of the keychain site
(file src/app/customizer/page.tsx).  State updates are modelled as pure
functions from the old state to the new state; the fresh ids produced by
crypto.randomUUID are modelled by a natural-number counter threaded
through the operations; image decoding is modelled by an environment
function from paths to optional decoded images.  Real numbers of the
source are modelled as rationals.
-/

namespace Customizer

/-- A freely placed charm, an element of manualItems: id, catalog index,
normalized center position and scale. -/
structure CharmItem where
  id : Nat
  charmIndex : Nat
  x : ℚ
  y : ℚ
  z : ℚ
  deriving DecidableEq

/-- The two placement modes of the customizer. -/
inductive Mode where
  | fixed
  | manual
  deriving DecidableEq

/-- The three named slot selections of fixed mode: A is the bottom slot,
B the middle slot, C the top slot. -/
structure Slots where
  A : Option Nat
  B : Option Nat
  C : Option Nat
  deriving DecidableEq

/-- The selection state of the page. -/
structure State where
  mode : Mode
  baseIndex : Nat
  slots : Slots
  manualItems : List CharmItem
  zoom : ℚ
  deriving DecidableEq

/-- Choice made by the user in the confirmation modal: the confirm button
runs onConfirm and closes the modal, the cancel button only closes it. -/
inductive UserChoice where
  | confirm
  | decline
  deriving DecidableEq

/-- A fixed slot position: normalized coordinates and default scale. -/
structure CharmPos where
  x : ℚ
  y : ℚ
  scale : ℚ
  deriving DecidableEq

/-- CANVAS_SIZE = 800. -/
def CANVAS_SIZE : ℚ := 800

/-- Top slot position, CHARM_POSITIONS.C in the source. -/
def CHARM_POSITIONS_C : CharmPos := { x := 1/2, y := 31/100, scale := 28/100 }

/-- Middle slot position, CHARM_POSITIONS.B in the source. -/
def CHARM_POSITIONS_B : CharmPos := { x := 1/2, y := 58/100, scale := 28/100 }

/-- Bottom slot position, CHARM_POSITIONS.A in the source. -/
def CHARM_POSITIONS_A : CharmPos := { x := 1/2, y := 85/100, scale := 28/100 }

/-- The initial useState value of the page. -/
def initialState : State :=
  { mode := Mode.fixed, baseIndex := 0,
    slots := { A := none, B := none, C := none },
    manualItems := [], zoom := 65/100 }

/-- The manual item synthesized for one populated slot: a fresh id, the
slot charm index, the slot coordinates and the slot scale. -/
def slotItem (c : Nat) (i : Nat) (pos : CharmPos) : CharmItem :=
  { id := c, charmIndex := i, x := pos.x, y := pos.y, z := pos.scale }

/-- The newItems list built inside switchMode when entering manual mode:
one item per populated slot, pushed in the order A, B, C, each with a
fresh id taken from the counter. -/
def slotsToManualItems (sl : Slots) (c : Nat) : List CharmItem × Nat :=
  let p1 : List CharmItem × Nat :=
    match sl.A with
    | some i => ([slotItem c i CHARM_POSITIONS_A], c + 1)
    | none => ([], c)
  let p2 : List CharmItem × Nat :=
    match sl.B with
    | some i => (p1.1 ++ [slotItem p1.2 i CHARM_POSITIONS_B], p1.2 + 1)
    | none => p1
  match sl.C with
  | some i => (p2.1 ++ [slotItem p2.2 i CHARM_POSITIONS_C], p2.2 + 1)
  | none => p2

/-- Number of populated slots. -/
def countPopulated (sl : Slots) : Nat :=
  (match sl.A with | some _ => 1 | none => 0)
    + (match sl.B with | some _ => 1 | none => 0)
    + (match sl.C with | some _ => 1 | none => 0)

/-- switchMode of the source.  Returns the new state, the new isEditing
flag and the new id counter.  A same-mode switch returns at once; a
fixed-to-manual switch converts the slots to manual items and turns
editing on; a manual-to-fixed switch shows the confirmation modal, whose
confirm button sets mode to fixed and whose cancel button changes
nothing. -/
def switchMode (s : State) (isEditing : Bool) (newMode : Mode)
    (choice : UserChoice) (c : Nat) : State × Bool × Nat :=
  if newMode = s.mode then (s, isEditing, c)
  else if newMode = Mode.manual ∧ s.mode = Mode.fixed then
    let p := slotsToManualItems s.slots c
    ({ s with mode := Mode.manual, manualItems := p.1 }, true, p.2)
  else if newMode = Mode.fixed then
    match choice with
    | UserChoice.confirm => ({ s with mode := Mode.fixed }, isEditing, c)
    | UserChoice.decline => (s, isEditing, c)
  else (s, isEditing, c)

/-- Concrete manual-mode state used to exercise the mode switch. -/
def c1state : State :=
  { initialState with
    mode := Mode.manual,
    manualItems := [{ id := 0, charmIndex := 0, x := 1/2, y := 1/2, z := 28/100 }] }

/-- C1 (amended): for every state in manual mode, after the user confirms
the switch to fixed mode the mode equals fixed and manualItems is
unchanged, not emptied, merely ignored by fixed mode; if the user
declines, mode and manualItems are unchanged; a transition to the same
mode is a no-op. -/
theorem C1_switch_manual_fixed (s : State) (e : Bool) (c : Nat)
    (hs : s.mode = Mode.manual) :
    ((switchMode s e Mode.fixed UserChoice.confirm c).1.mode = Mode.fixed
      ∧ (switchMode s e Mode.fixed UserChoice.confirm c).1.manualItems = s.manualItems)
    ∧ switchMode s e Mode.fixed UserChoice.decline c = (s, e, c)
    ∧ ∀ ch : UserChoice, switchMode s e Mode.manual ch c = (s, e, c) := by
  refine ⟨⟨?_, ?_⟩, ?_, ?_⟩ <;> simp [switchMode, hs]

/-- C1 witness: the amended statement at a concrete manual-mode state. -/
theorem C1_witness :
    ((switchMode c1state true Mode.fixed UserChoice.confirm 1).1.mode = Mode.fixed
      ∧ (switchMode c1state true Mode.fixed UserChoice.confirm 1).1.manualItems
          = c1state.manualItems)
    ∧ switchMode c1state true Mode.fixed UserChoice.decline 1 = (c1state, true, 1)
    ∧ ∀ ch : UserChoice, switchMode c1state true Mode.manual ch 1 = (c1state, true, 1) :=
  C1_switch_manual_fixed c1state true 1 rfl

/-- C1 counterexample: in a manual-mode state with one placed item, the
confirmed switch to fixed mode does not empty manualItems, contradicting
the claim that the manual placements are dropped from the state. -/
theorem C1_counterexample :
    ¬ (switchMode c1state true Mode.fixed UserChoice.confirm 1).1.manualItems = [] := by
  decide

/-- C2: for every state in fixed mode, switching to manual mode enters
manual mode with editing on and synthesizes one manual item per populated
slot, each at the slot coordinates and the fixed default scale, with ids
freshly drawn from the counter and pairwise distinct; with only the
bottom slot populated the result is exactly one item at the bottom slot
position. -/
theorem C2_fixed_to_manual (s : State) (e : Bool) (ch : UserChoice) (c : Nat)
    (hs : s.mode = Mode.fixed) :
    (switchMode s e Mode.manual ch c).1.mode = Mode.manual
    ∧ (switchMode s e Mode.manual ch c).2.1 = true
    ∧ (switchMode s e Mode.manual ch c).1.manualItems.length = countPopulated s.slots
    ∧ ((switchMode s e Mode.manual ch c).1.manualItems.map CharmItem.id).Nodup
    ∧ (∀ it ∈ (switchMode s e Mode.manual ch c).1.manualItems, c ≤ it.id)
    ∧ (∀ k, s.slots.A = some k →
        ∃ it ∈ (switchMode s e Mode.manual ch c).1.manualItems,
          it.charmIndex = k ∧ it.x = CHARM_POSITIONS_A.x ∧ it.y = CHARM_POSITIONS_A.y
            ∧ it.z = CHARM_POSITIONS_A.scale)
    ∧ (∀ k, s.slots.B = some k →
        ∃ it ∈ (switchMode s e Mode.manual ch c).1.manualItems,
          it.charmIndex = k ∧ it.x = CHARM_POSITIONS_B.x ∧ it.y = CHARM_POSITIONS_B.y
            ∧ it.z = CHARM_POSITIONS_B.scale)
    ∧ (∀ k, s.slots.C = some k →
        ∃ it ∈ (switchMode s e Mode.manual ch c).1.manualItems,
          it.charmIndex = k ∧ it.x = CHARM_POSITIONS_C.x ∧ it.y = CHARM_POSITIONS_C.y
            ∧ it.z = CHARM_POSITIONS_C.scale)
    ∧ (∀ k, s.slots.A = some k → s.slots.B = none → s.slots.C = none →
        (switchMode s e Mode.manual ch c).1.manualItems = [slotItem c k CHARM_POSITIONS_A]) := by
  have hm : switchMode s e Mode.manual ch c
      = ({ s with mode := Mode.manual, manualItems := (slotsToManualItems s.slots c).1 },
          true, (slotsToManualItems s.slots c).2) := by
    simp [switchMode, hs]
  rw [hm]
  rcases hA : s.slots.A with _ | a <;> rcases hB : s.slots.B with _ | b <;>
    rcases hC : s.slots.C with _ | d <;>
      simp_all [slotsToManualItems, countPopulated, slotItem]
  all_goals omega

/-- C2 witness: the statement at a concrete fixed-mode state with only
the bottom slot populated. -/
theorem C2_witness :
    (switchMode { initialState with slots := { A := some 3, B := none, C := none } }
        true Mode.manual UserChoice.confirm 0).1.mode = Mode.manual
    ∧ (switchMode { initialState with slots := { A := some 3, B := none, C := none } }
        true Mode.manual UserChoice.confirm 0).1.manualItems
          = [slotItem 0 3 CHARM_POSITIONS_A] := by
  have h := C2_fixed_to_manual
    { initialState with slots := { A := some 3, B := none, C := none } }
    true UserChoice.confirm 0 rfl
  exact ⟨h.1, h.2.2.2.2.2.2.2.2 3 rfl rfl rfl⟩

/-- The zoom-in button: zoom becomes min (zoom + 0.1) 2. -/
def zoomInBtn (s : State) : State := { s with zoom := min (s.zoom + 1/10) 2 }

/-- The zoom-out button: zoom becomes max (zoom - 0.1) 0.4. -/
def zoomOutBtn (s : State) : State := { s with zoom := max (s.zoom - 1/10) (4/10) }

/-- The two zoom-update operations of the page. -/
inductive ZoomOp where
  | zin
  | zout
  deriving DecidableEq

/-- Apply one zoom-update operation. -/
def applyZoomOp (s : State) : ZoomOp → State
  | ZoomOp.zin => zoomInBtn s
  | ZoomOp.zout => zoomOutBtn s

/-- One zoom-update step keeps the zoom inside the configured bounds. -/
theorem applyZoomOp_bounds (s : State) (op : ZoomOp)
    (h1 : 4/10 ≤ s.zoom) (h2 : s.zoom ≤ 2) :
    4/10 ≤ (applyZoomOp s op).zoom ∧ (applyZoomOp s op).zoom ≤ 2 := by
  cases op <;> simp only [applyZoomOp, zoomInBtn, zoomOutBtn] <;> constructor
  · exact le_min (by linarith) (by norm_num)
  · exact min_le_right _ _
  · exact le_max_right _ _
  · exact max_le (by linarith) (by norm_num)

/-- Folding any sequence of zoom-update operations preserves the bounds. -/
theorem foldZoom_bounds (ops : List ZoomOp) :
    ∀ s : State, 4/10 ≤ s.zoom → s.zoom ≤ 2 →
      4/10 ≤ (ops.foldl applyZoomOp s).zoom ∧ (ops.foldl applyZoomOp s).zoom ≤ 2 := by
  induction ops with
  | nil => exact fun s h1 h2 => ⟨h1, h2⟩
  | cons op rest ih =>
      intro s h1 h2
      have h := applyZoomOp_bounds s op h1 h2
      exact ih (applyZoomOp s op) h.1 h.2

/-- C3: starting from the default zoom of 0.65, every sequence of the
zoom-update operations of the page (each adding its delta to the current
zoom and clamping) leaves the zoom inside the interval from 0.4 to 2. -/
theorem C3_zoom_clamped (ops : List ZoomOp) :
    4/10 ≤ (ops.foldl applyZoomOp initialState).zoom
    ∧ (ops.foldl applyZoomOp initialState).zoom ≤ 2 :=
  foldZoom_bounds ops initialState (by norm_num [initialState]) (by norm_num [initialState])

/-- Geometry of a pointer event: client coordinates of the pointer and
the bounding client rect of the canvas element. -/
structure EventGeom where
  clientX : ℚ
  clientY : ℚ
  rectLeft : ℚ
  rectTop : ℚ
  rectWidth : ℚ
  rectHeight : ℚ
  deriving DecidableEq

/-- getCanvasCoords of the source: invert the center-translate, scale,
translate-back transform and normalize by CANVAS_SIZE.  No clamping is
applied. -/
def getCanvasCoords (ev : EventGeom) (zoom : ℚ) : ℚ × ℚ :=
  let cx := ev.rectWidth / 2
  let cy := ev.rectHeight / 2
  let relX := (ev.clientX - ev.rectLeft - cx) / zoom + CANVAS_SIZE / 2
  let relY := (ev.clientY - ev.rectTop - cy) / zoom + CANVAS_SIZE / 2
  (relX / CANVAS_SIZE, relY / CANVAS_SIZE)

/-- The hit predicate of handleCanvasMouseDown: squared distance of the
pointer from the item center strictly below 0.14 squared, 0.14 being the
hit radius in normalized units. -/
def hitPred (coords : ℚ × ℚ) (item : CharmItem) : Bool :=
  decide ((coords.1 - item.x) * (coords.1 - item.x)
    + (coords.2 - item.y) * (coords.2 - item.y) < (14/100 : ℚ) * (14/100))

/-- The hit test of handleCanvasMouseDown: reverse the manual items, so
the topmost drawn item comes first, and take the first item within the
hit radius. -/
def hitTest (items : List CharmItem) (coords : ℚ × ℚ) : Option CharmItem :=
  items.reverse.find? (hitPred coords)

/-- handleCanvasMouseDown of the source: only in manual mode with editing
on, hit-test at the pointer; on a hit, the hit item becomes the dragged
item and the grab offset is recorded; otherwise the drag state is left
unchanged. -/
def handleCanvasMouseDown (s : State) (isEditing : Bool) (dragged : Option Nat)
    (dragOffset : ℚ × ℚ) (ev : EventGeom) : Option Nat × (ℚ × ℚ) :=
  if s.mode = Mode.manual ∧ isEditing then
    let coords := getCanvasCoords ev s.zoom
    match hitTest s.manualItems coords with
    | some item => (some item.id, (coords.1 - item.x, coords.2 - item.y))
    | none => (dragged, dragOffset)
  else (dragged, dragOffset)

/-- handleCanvasMouseMove of the source: while a drag is active in manual
mode with editing on, map over manualItems and move only the item whose
id equals the dragged id to the pointer position minus the grab offset. -/
def handleCanvasMouseMove (s : State) (isEditing : Bool) (dragged : Option Nat)
    (dragOffset : ℚ × ℚ) (ev : EventGeom) : State :=
  match dragged with
  | none => s
  | some dId =>
      if s.mode = Mode.manual ∧ isEditing then
        let coords := getCanvasCoords ev s.zoom
        { s with
          manualItems := s.manualItems.map fun item =>
            if item.id = dId then
              { item with x := coords.1 - dragOffset.1, y := coords.2 - dragOffset.2 }
            else item }
      else s

/-- handleDrop of the source: only in manual mode with editing on; a
payload that does not parse to a number is ignored; otherwise a new item
with a fresh id is appended at the drop point in canvas-normalized
coordinates with scale 0.28. -/
def handleDrop (s : State) (isEditing : Bool) (payload : Option Nat)
    (ev : EventGeom) (freshId : Nat) : State :=
  if s.mode = Mode.manual ∧ isEditing then
    match payload with
    | none => s
    | some charmIndex =>
        let coords := getCanvasCoords ev s.zoom
        { s with
          manualItems := s.manualItems
            ++ [{ id := freshId, charmIndex := charmIndex,
                  x := coords.1, y := coords.2, z := 28/100 }] }
  else s

/-- The onClick handler of a charm tile in the manual-mode palette: when
editing is on, append a new item with a fresh id at the canvas center
with scale 0.28; when editing is off, do nothing.  The palette is only
rendered in manual mode. -/
def paletteClick (s : State) (isEditing : Bool) (idx : Nat) (freshId : Nat) : State :=
  if isEditing then
    { s with
      manualItems := s.manualItems
        ++ [{ id := freshId, charmIndex := idx, x := 1/2, y := 1/2, z := 28/100 }] }
  else s

/-- C4: hit testing scans manualItems in reverse draw order and selects
the first item whose squared distance from the pointer is strictly below
the square of the 0.14 hit radius: a pointer strictly within the radius
of some item selects an item, a pointer at or beyond the radius from
every item selects nothing, among overlapping items the one later in
draw order wins, and with no hit the mouse-down handler leaves the drag
state unchanged, so no drag starts. -/
theorem C4_hit_testing (items : List CharmItem) (coords : ℚ × ℚ) (b : CharmItem)
    (s : State) (dragged : Option Nat) (off : ℚ × ℚ) (ev : EventGeom) :
    (b ∈ items →
      (coords.1 - b.x) * (coords.1 - b.x) + (coords.2 - b.y) * (coords.2 - b.y)
          < (14/100 : ℚ) * (14/100) →
      (hitTest items coords).isSome = true)
    ∧ ((∀ it ∈ items,
          ¬ ((coords.1 - it.x) * (coords.1 - it.x) + (coords.2 - it.y) * (coords.2 - it.y)
              < (14/100 : ℚ) * (14/100))) →
        hitTest items coords = none)
    ∧ ((coords.1 - b.x) * (coords.1 - b.x) + (coords.2 - b.y) * (coords.2 - b.y)
          < (14/100 : ℚ) * (14/100) →
        hitTest (items ++ [b]) coords = some b)
    ∧ (s.mode = Mode.manual →
        hitTest s.manualItems (getCanvasCoords ev s.zoom) = none →
        handleCanvasMouseDown s true dragged off ev = (dragged, off)) := by
  refine ⟨?_, ?_, ?_, ?_⟩
  · intro hb hd
    rw [hitTest, List.find?_isSome]
    exact ⟨b, List.mem_reverse.mpr hb, by simpa [hitPred] using hd⟩
  · intro h
    rw [hitTest, List.find?_eq_none]
    intro x hx
    simpa [hitPred] using h x (List.mem_reverse.mp hx)
  · intro hd
    rw [hitTest, List.reverse_append]
    exact List.find?_cons_of_pos _ (by simpa [hitPred] using hd)
  · intro hm hnone
    simp [handleCanvasMouseDown, hm, hnone]

/-- A first concrete charm item at the canvas center. -/
def item0 : CharmItem := { id := 0, charmIndex := 0, x := 1/2, y := 1/2, z := 28/100 }

/-- A second concrete charm item overlapping the first. -/
def item1 : CharmItem := { id := 1, charmIndex := 1, x := 1/2, y := 1/2, z := 28/100 }

/-- An empty-canvas manual-mode state. -/
def sManualEmpty : State := { initialState with mode := Mode.manual }

/-- A pointer event at the top-left corner of a square canvas rect. -/
def evCorner : EventGeom :=
  { clientX := 0, clientY := 0, rectLeft := 0, rectTop := 0,
    rectWidth := 800, rectHeight := 800 }

/-- C4 witness: a pointer at an item center selects an item, a pointer
exactly 0.15 units away from the only item selects nothing, among two
overlapping items the one later in draw order is selected, and on a
canvas with no items the mouse-down handler starts no drag. -/
theorem C4_witness :
    (hitTest [item0, item1] (1/2, 1/2)).isSome = true
    ∧ hitTest [item0] (13/20, 1/2) = none
    ∧ hitTest ([item0] ++ [item1]) (1/2, 1/2) = some item1
    ∧ handleCanvasMouseDown sManualEmpty true none (0, 0) evCorner = (none, (0, 0)) := by
  refine ⟨?_, ?_, ?_, ?_⟩
  · exact (C4_hit_testing [item0, item1] (1/2, 1/2) item0 sManualEmpty none (0, 0)
      evCorner).1 (by simp) (by norm_num [item0])
  · refine (C4_hit_testing [item0] (13/20, 1/2) item0 sManualEmpty none (0, 0)
      evCorner).2.1 ?_
    intro it hit
    rw [List.mem_singleton] at hit
    subst hit
    norm_num [item0]
  · exact (C4_hit_testing [item0] (1/2, 1/2) item1 sManualEmpty none (0, 0)
      evCorner).2.2.1 (by norm_num [item1])
  · exact (C4_hit_testing [] (0, 0) item0 sManualEmpty none (0, 0)
      evCorner).2.2.2 rfl rfl

/-- C5: a drag move in manual editing mode updates only the item whose id
is being dragged, setting its x and y to the pointer position minus the
grab offset while keeping its id, charm index and scale; every other item
is positionwise unchanged; and if the dragged id is not present in the
list, the move leaves the whole state unchanged. -/
theorem C5_move_only_dragged (s : State) (dId : Nat) (off : ℚ × ℚ) (ev : EventGeom)
    (hm : s.mode = Mode.manual) :
    List.Forall₂
      (fun old new =>
        if old.id = dId then
          new.id = old.id ∧ new.charmIndex = old.charmIndex ∧ new.z = old.z
            ∧ new.x = (getCanvasCoords ev s.zoom).1 - off.1
            ∧ new.y = (getCanvasCoords ev s.zoom).2 - off.2
        else new = old)
      s.manualItems (handleCanvasMouseMove s true (some dId) off ev).manualItems
    ∧ (dId ∉ s.manualItems.map CharmItem.id →
        handleCanvasMouseMove s true (some dId) off ev = s) := by
  constructor
  · have hres : (handleCanvasMouseMove s true (some dId) off ev).manualItems
        = s.manualItems.map fun item =>
            if item.id = dId then
              { item with
                x := (getCanvasCoords ev s.zoom).1 - off.1,
                y := (getCanvasCoords ev s.zoom).2 - off.2 }
            else item := by
      simp [handleCanvasMouseMove, hm]
    rw [hres, List.forall₂_map_right_iff, List.forall₂_same]
    intro it _
    by_cases hid : it.id = dId <;> simp [hid]
  · intro habs
    have hmap : (s.manualItems.map fun item =>
        if item.id = dId then
          { item with
            x := (getCanvasCoords ev s.zoom).1 - off.1,
            y := (getCanvasCoords ev s.zoom).2 - off.2 }
        else item) = s.manualItems := by
      have h1 : ∀ it ∈ s.manualItems,
          (if it.id = dId then
            { it with
              x := (getCanvasCoords ev s.zoom).1 - off.1,
              y := (getCanvasCoords ev s.zoom).2 - off.2 }
          else it) = id it := by
        intro it hit
        have : it.id ≠ dId := fun hEq => habs (List.mem_map.mpr ⟨it, hit, hEq⟩)
        simp [this]
      rw [List.map_congr_left h1, List.map_id]
    simp [handleCanvasMouseMove, hm, hmap]
    rw [← hm]

/-- C5 witness: the statement at a concrete two-item manual state with
one item dragged and an absent id. -/
theorem C5_witness :
    (List.Forall₂
      (fun old new =>
        if old.id = 1 then
          new.id = old.id ∧ new.charmIndex = old.charmIndex ∧ new.z = old.z
            ∧ new.x = (getCanvasCoords evCorner
                { sManualEmpty with manualItems := [item0, item1] }.zoom).1 - 0
            ∧ new.y = (getCanvasCoords evCorner
                { sManualEmpty with manualItems := [item0, item1] }.zoom).2 - 0
        else new = old)
      [item0, item1]
      (handleCanvasMouseMove { sManualEmpty with manualItems := [item0, item1] }
        true (some 1) (0, 0) evCorner).manualItems)
    ∧ handleCanvasMouseMove { sManualEmpty with manualItems := [item0, item1] }
        true (some 5) (0, 0) evCorner
        = { sManualEmpty with manualItems := [item0, item1] } := by
  constructor
  · exact (C5_move_only_dragged
      { sManualEmpty with manualItems := [item0, item1] } 1 (0, 0) evCorner rfl).1
  · refine (C5_move_only_dragged
      { sManualEmpty with manualItems := [item0, item1] } 5 (0, 0) evCorner rfl).2 ?_
    simp [item0, item1]

/-- C6 counterexample: dropping a charm at the top-left corner of the
canvas rect at the default zoom of 0.65 creates a manual item whose
normalized x coordinate is negative, so the membership of x and y in the
unit interval is not an invariant of the reachable states. -/
theorem C6_counterexample :
    ∃ it ∈ (handleDrop sManualEmpty true (some 0) evCorner 0).manualItems, it.x < 0 := by
  have hcoords : getCanvasCoords evCorner sManualEmpty.zoom = (-7/26, -7/26) := by
    norm_num [getCanvasCoords, evCorner, sManualEmpty, initialState, CANVAS_SIZE]
  refine ⟨{ id := 0, charmIndex := 0, x := -7/26, y := -7/26, z := 28/100 }, ?_, by norm_num⟩
  simp [handleDrop, sManualEmpty, initialState, hcoords]
  norm_num [getCanvasCoords, evCorner, CANVAS_SIZE]

/-- C6 (amended): the item-creating operations with fixed coordinates do
keep x and y inside the unit interval: every item synthesized by a
fixed-to-manual switch sits at one of the three slot positions, and a
palette click appends an item at the canvas center, so both preserve the
bound; but drag moves and drops use unclamped pointer coordinates, so the
bound is not an invariant of all reachable states. -/
theorem C6_creation_coords_bounded (s : State) (e : Bool) (ch : UserChoice) (c : Nat)
    (s2 : State) (idx fid : Nat)
    (hs : s.mode = Mode.fixed)
    (hb : ∀ it ∈ s2.manualItems, 0 ≤ it.x ∧ it.x ≤ 1 ∧ 0 ≤ it.y ∧ it.y ≤ 1) :
    (∀ it ∈ (switchMode s e Mode.manual ch c).1.manualItems,
        0 ≤ it.x ∧ it.x ≤ 1 ∧ 0 ≤ it.y ∧ it.y ≤ 1)
    ∧ (∀ it ∈ (paletteClick s2 true idx fid).manualItems,
        0 ≤ it.x ∧ it.x ≤ 1 ∧ 0 ≤ it.y ∧ it.y ≤ 1) := by
  constructor
  · have hm : (switchMode s e Mode.manual ch c).1.manualItems
        = (slotsToManualItems s.slots c).1 := by
      simp [switchMode, hs]
    rw [hm]
    intro it hit
    rcases hA : s.slots.A with _ | a <;> rcases hB : s.slots.B with _ | b <;>
      rcases hC : s.slots.C with _ | d <;>
        simp only [slotsToManualItems, hA, hB, hC, List.mem_append,
          List.mem_singleton, List.not_mem_nil, false_or, or_false,
          List.mem_cons, List.singleton_append, List.nil_append,
          List.cons_append] at hit <;>
        first
          | exact hit.elim
          | (rcases hit with rfl | rfl | rfl <;>
              norm_num [slotItem, CHARM_POSITIONS_A, CHARM_POSITIONS_B, CHARM_POSITIONS_C])
  · intro it hit
    simp only [paletteClick, if_pos, List.mem_append, List.mem_singleton] at hit
    rcases hit with h | h
    · exact hb it h
    · subst h
      norm_num

/-- C6 witness: the amended statement at a fixed-mode state with one
populated slot and an empty manual state. -/
theorem C6_witness :
    (∀ it ∈ (switchMode { initialState with slots := { A := some 0, B := none, C := none } }
        true Mode.manual UserChoice.confirm 0).1.manualItems,
      0 ≤ it.x ∧ it.x ≤ 1 ∧ 0 ≤ it.y ∧ it.y ≤ 1)
    ∧ (∀ it ∈ (paletteClick sManualEmpty true 0 0).manualItems,
        0 ≤ it.x ∧ it.x ≤ 1 ∧ 0 ≤ it.y ∧ it.y ≤ 1) :=
  C6_creation_coords_bounded
    { initialState with slots := { A := some 0, B := none, C := none } }
    true UserChoice.confirm 0 sManualEmpty 0 0 rfl
    (by intro it hit; simp [sManualEmpty, initialState] at hit)

/-- A decoded raster image: only its pixel dimensions matter to the
drawing geometry. -/
structure Image where
  width : ℚ
  height : ℚ
  deriving DecidableEq

/-- The path-keyed image cache, a map from path to decoded image. -/
def Cache := List (String × Image)

/-- loadImage of the source.  The decode environment maps a path to the
eventual decode outcome: some image when either img.decode or the
onload fallback succeeds, none when the load fails.  Returns the
resolved image or the failure marker, the updated cache, and whether a
new decode was initiated: a cache hit returns the stored image at once
with no decode; a miss decodes, and on success stores the image in the
cache before returning it; on failure it returns none and caches
nothing. -/
def loadImage (cache : Cache) (env : String → Option Image) (src : String) :
    Option Image × Cache × Bool :=
  match List.lookup src cache with
  | some img => (some img, cache, false)
  | none =>
      match env src with
      | some img => (some img, (src, img) :: cache, true)
      | none => (none, cache, true)

/-- C7: a call with a cached path returns the stored image with the cache
unchanged and no new decode initiated; a cache miss whose decode succeeds
returns the decoded image and stores it in the cache under its path; and
after any resolution that returned an image, resolving the same path
again returns that same image without initiating a decode. -/
theorem C7_cache_decodes_once (cache : Cache) (env : String → Option Image)
    (src : String) (img : Image) :
    (List.lookup src cache = some img →
      loadImage cache env src = (some img, cache, false))
    ∧ (List.lookup src cache = none → env src = some img →
        (loadImage cache env src).1 = some img
          ∧ List.lookup src (loadImage cache env src).2.1 = some img
          ∧ (loadImage cache env src).2.2 = true)
    ∧ ((loadImage cache env src).1 = some img →
        loadImage (loadImage cache env src).2.1 env src
          = (some img, (loadImage cache env src).2.1, false)) := by
  refine ⟨?_, ?_, ?_⟩
  · intro h
    simp [loadImage, h]
  · intro h1 h2
    simp [loadImage, h1, h2]
  · intro h
    rcases hc : List.lookup src cache with _ | cimg
    · rcases he : env src with _ | eimg
      · have hL : loadImage cache env src = (none, cache, true) := by
          simp [loadImage, hc, he]
        rw [hL] at h
        exact absurd h (by simp)
      · have hL : loadImage cache env src = (some eimg, (src, eimg) :: cache, true) := by
          simp [loadImage, hc, he]
        rw [hL] at h ⊢
        simp only [Option.some.injEq] at h
        subst h
        simp [loadImage, List.lookup]
    · have hL : loadImage cache env src = (some cimg, cache, false) := by
        simp [loadImage, hc]
      rw [hL] at h ⊢
      simp only [Option.some.injEq] at h
      subst h
      simp [loadImage, hc]

/-- C7 witness: the statement at a concrete one-entry cache, a concrete
environment and a concrete path. -/
theorem C7_witness :
    (loadImage [("a", { width := 2, height := 3 })]
        (fun _ => some { width := 5, height := 5 }) "a"
      = (some { width := 2, height := 3 }, [("a", { width := 2, height := 3 })], false))
    ∧ ((loadImage [] (fun _ => some { width := 5, height := 5 }) "b").1
          = some { width := 5, height := 5 }
        ∧ List.lookup "b" (loadImage [] (fun _ => some { width := 5, height := 5 }) "b").2.1
            = some { width := 5, height := 5 }
        ∧ (loadImage [] (fun _ => some { width := 5, height := 5 }) "b").2.2 = true)
    ∧ loadImage (loadImage [] (fun _ => some { width := 5, height := 5 }) "b").2.1
        (fun _ => some { width := 5, height := 5 }) "b"
        = (some { width := 5, height := 5 },
            (loadImage [] (fun _ => some { width := 5, height := 5 }) "b").2.1, false) := by
  refine ⟨?_, ?_, ?_⟩
  · exact (C7_cache_decodes_once [("a", { width := 2, height := 3 })]
      (fun _ => some { width := 5, height := 5 }) "a" { width := 2, height := 3 }).1 rfl
  · exact (C7_cache_decodes_once [] (fun _ => some { width := 5, height := 5 }) "b"
      { width := 5, height := 5 }).2.1 rfl rfl
  · exact (C7_cache_decodes_once [] (fun _ => some { width := 5, height := 5 }) "b"
      { width := 5, height := 5 }).2.2 rfl

/-- Resolution outcome a render pass sees for one path: the cached image
if present, otherwise the decode outcome.  This is the first component
of loadImage. -/
def resolveResult (cache : Cache) (env : String → Option Image) (src : String) :
    Option Image :=
  match List.lookup src cache with
  | some img => some img
  | none => env src

/-- A pixel rectangle on the canvas: top-left corner, width, height. -/
structure Rect where
  x : ℚ
  y : ℚ
  w : ℚ
  h : ℚ
  deriving DecidableEq

/-- The pixel rectangle of a charm layer, from the render loop of the
source: cw = CANVAS_SIZE * scale, ch = (cw / img.width) * img.height,
corner = normalized center times CANVAS_SIZE minus half the extent. -/
def charmRect (x y scale iw ih : ℚ) : Rect :=
  let cw := CANVAS_SIZE * scale
  let ch := (cw / iw) * ih
  { x := CANVAS_SIZE * x - cw / 2, y := CANVAS_SIZE * y - ch / 2, w := cw, h := ch }

/-- One charm draw request of a render pass. -/
structure CharmRequest where
  path : String
  x : ℚ
  y : ℚ
  scale : ℚ
  isSelected : Bool
  deriving DecidableEq

/-- The charm requests of a render pass, built from the state: in fixed
mode one request per populated slot in the order A, B, C at the fixed
slot positions; in manual mode one request per item in list order at the
item position and scale, flagged selected when its id is the dragged id.
The catalog maps charm indices to paths. -/
def charmRequestsOf (s : State) (dragged : Option Nat) (animals : Nat → String) :
    List CharmRequest :=
  match s.mode with
  | Mode.fixed =>
      (match s.slots.A with
        | some i => [{ path := animals i, x := CHARM_POSITIONS_A.x,
                       y := CHARM_POSITIONS_A.y, scale := CHARM_POSITIONS_A.scale,
                       isSelected := false }]
        | none => [])
        ++ (match s.slots.B with
          | some i => [{ path := animals i, x := CHARM_POSITIONS_B.x,
                         y := CHARM_POSITIONS_B.y, scale := CHARM_POSITIONS_B.scale,
                         isSelected := false }]
          | none => [])
        ++ (match s.slots.C with
          | some i => [{ path := animals i, x := CHARM_POSITIONS_C.x,
                         y := CHARM_POSITIONS_C.y, scale := CHARM_POSITIONS_C.scale,
                         isSelected := false }]
          | none => [])
  | Mode.manual =>
      s.manualItems.map fun it =>
        { path := animals it.charmIndex, x := it.x, y := it.y,
          scale := it.z, isSelected := decide (dragged = some it.id) }

/-- A drawing step of a render pass.  Purely visual settings of the
source (shadow parameters, the dashed selection outline and its handle
dot) are not separate commands; layer geometry, order and the failure
paths are kept. -/
inductive DrawCmd where
  | base (img : Image) (rect : Rect)
  | baseError (msg : String) (path : String)
  | charm (img : Image) (rect : Rect) (selected : Bool)
  deriving DecidableEq

/-- Whether a draw command draws a charm layer. -/
def isCharmCmd : DrawCmd → Bool
  | DrawCmd.charm _ _ _ => true
  | _ => false

/-- The base-layer command of a render pass: a resolved base image is
drawn at 80 percent of the canvas width, centered, height preserving the
aspect ratio; a failed base image is replaced by an on-canvas textual
error message together with the attempted path. -/
def baseCmdOf (cache : Cache) (env : String → Option Image) (basePath : String) :
    List DrawCmd :=
  match resolveResult cache env basePath with
  | some img =>
      let bw := CANVAS_SIZE * (8/10)
      let bh := (bw / img.width) * img.height
      [DrawCmd.base img
        { x := (CANVAS_SIZE - bw) / 2, y := (CANVAS_SIZE - bh) / 2, w := bw, h := bh }]
  | none => [DrawCmd.baseError "Error: Gagal memuat gambar base." basePath]

/-- The draw command of one charm request: a resolved charm is drawn at
its computed pixel rectangle; a failed charm is skipped silently with no
placeholder. -/
def charmCmdOf (cache : Cache) (env : String → Option Image) (req : CharmRequest) :
    List DrawCmd :=
  match resolveResult cache env req.path with
  | some img =>
      [DrawCmd.charm img (charmRect req.x req.y req.scale img.width img.height)
        req.isSelected]
  | none => []

/-- The charm draw commands of a render pass, in request order. -/
def charmCmds (cache : Cache) (env : String → Option Image) :
    List CharmRequest → List DrawCmd
  | [] => []
  | req :: rest => charmCmdOf cache env req ++ charmCmds cache env rest

/-- All draw commands of a render pass: the base layer first and then
each charm layer in order, later ones on top. -/
def renderCmds (cache : Cache) (env : String → Option Image) (basePath : String)
    (reqs : List CharmRequest) : List DrawCmd :=
  baseCmdOf cache env basePath ++ charmCmds cache env reqs

/-- The base-layer command list never contains a charm command. -/
theorem countP_baseCmdOf (cache : Cache) (env : String → Option Image)
    (basePath : String) : (baseCmdOf cache env basePath).countP isCharmCmd = 0 := by
  rcases h : resolveResult cache env basePath with _ | img <;>
    simp [baseCmdOf, h, List.countP_cons, isCharmCmd]

/-- There is exactly one charm command per request whose path resolves. -/
theorem countP_charmCmds (cache : Cache) (env : String → Option Image)
    (reqs : List CharmRequest) :
    (charmCmds cache env reqs).countP isCharmCmd
      = reqs.countP fun r => (resolveResult cache env r.path).isSome := by
  induction reqs with
  | nil => rfl
  | cons req rest ih =>
      rw [charmCmds, List.countP_append, List.countP_cons, ih]
      rcases h : resolveResult cache env req.path with _ | img <;>
        simp [charmCmdOf, h, List.countP_cons, isCharmCmd, Nat.add_comm]

/-- C8: image decode failure is per image and non-fatal: loadImage
returns the failure marker none instead of raising and caches nothing; a
failed base image makes the render pass emit an on-canvas textual error
command carrying the attempted path; a failed charm image contributes no
draw command at all, so charm commands exist exactly for the requests
whose path resolves; and the render pass always emits at least the base
layer or its error text, never nothing. -/
theorem C8_failure_handling (cache : Cache) (env : String → Option Image)
    (basePath src : String) (reqs : List CharmRequest) :
    (List.lookup src cache = none → env src = none →
      loadImage cache env src = (none, cache, true))
    ∧ (resolveResult cache env basePath = none →
        DrawCmd.baseError "Error: Gagal memuat gambar base." basePath
          ∈ renderCmds cache env basePath reqs)
    ∧ (renderCmds cache env basePath reqs).countP isCharmCmd
        = reqs.countP (fun r => (resolveResult cache env r.path).isSome)
    ∧ renderCmds cache env basePath reqs ≠ [] := by
  refine ⟨?_, ?_, ?_, ?_⟩
  · intro h1 h2
    simp [loadImage, h1, h2]
  · intro h
    simp [renderCmds, baseCmdOf, h]
  · rw [renderCmds, List.countP_append, countP_baseCmdOf, countP_charmCmds,
      Nat.zero_add]
  · rw [renderCmds]
    rcases h : resolveResult cache env basePath with _ | img <;>
      simp [baseCmdOf, h]

/-- C8 witness: the statement at an empty cache, an environment in which
every decode fails and one charm request. -/
theorem C8_witness :
    (loadImage [] (fun _ => none) "base.png" = (none, [], true))
    ∧ DrawCmd.baseError "Error: Gagal memuat gambar base." "base.png"
        ∈ renderCmds [] (fun _ => none) "base.png"
            [{ path := "charm.png", x := 1/2, y := 1/2, scale := 28/100, isSelected := false }]
    ∧ (renderCmds [] (fun _ => none) "base.png"
          [{ path := "charm.png", x := 1/2, y := 1/2, scale := 28/100,
              isSelected := false }]).countP isCharmCmd
        = List.countP (fun r : CharmRequest => (resolveResult [] (fun _ => none) r.path).isSome)
            [{ path := "charm.png", x := 1/2, y := 1/2, scale := 28/100, isSelected := false }]
    ∧ renderCmds [] (fun _ => none) "base.png"
        [{ path := "charm.png", x := 1/2, y := 1/2, scale := 28/100, isSelected := false }]
        ≠ [] := by
  have h := C8_failure_handling [] (fun _ => none) "base.png" "base.png"
    [{ path := "charm.png", x := 1/2, y := 1/2, scale := 28/100, isSelected := false }]
  exact ⟨h.1 rfl rfl, h.2.1 rfl, h.2.2.1, h.2.2.2⟩

/-- C9: the pixel rectangle of a charm layer has width equal to the
canvas size times the scale, height equal to the width times the source
aspect ratio, and top-left corner equal to the center in pixels minus
half the extent; a resolved charm request is drawn at exactly this
rectangle; and at center (0.5, 0.5) with scale 0.28 on the 800 by 800
canvas, a square source image occupies the centered square with corner
(288, 288) and side 224. -/
theorem C9_charm_rect (x y scale iw ih w : ℚ) (hw : w ≠ 0)
    (cache : Cache) (env : String → Option Image) (req : CharmRequest) (img : Image) :
    (charmRect x y scale iw ih).w = CANVAS_SIZE * scale
    ∧ (charmRect x y scale iw ih).h = CANVAS_SIZE * scale * (ih / iw)
    ∧ (charmRect x y scale iw ih).x = CANVAS_SIZE * x - (charmRect x y scale iw ih).w / 2
    ∧ (charmRect x y scale iw ih).y = CANVAS_SIZE * y - (charmRect x y scale iw ih).h / 2
    ∧ charmRect (1/2) (1/2) (28/100) w w = { x := 288, y := 288, w := 224, h := 224 }
    ∧ (resolveResult cache env req.path = some img →
        charmCmdOf cache env req
          = [DrawCmd.charm img (charmRect req.x req.y req.scale img.width img.height)
              req.isSelected]) := by
  refine ⟨rfl, ?_, rfl, rfl, ?_, ?_⟩
  · show CANVAS_SIZE * scale / iw * ih = CANVAS_SIZE * scale * (ih / iw)
    ring
  · simp only [charmRect, CANVAS_SIZE]
    rw [div_mul_cancel₀ _ hw]
    norm_num
  · intro h
    simp [charmCmdOf, h]

/-- A concrete square decoded image. -/
def squareImg : Image := { width := 640, height := 640 }

/-- C9 witness: the statement at concrete numbers, with a concrete
request resolved to a square image. -/
theorem C9_witness :
    (charmRect (1/2) (1/2) (28/100) 640 640).w = CANVAS_SIZE * (28/100)
    ∧ charmRect (1/2) (1/2) (28/100) 640 640 = { x := 288, y := 288, w := 224, h := 224 }
    ∧ charmCmdOf [] (fun _ => some squareImg)
        { path := "charm.png", x := 1/2, y := 1/2, scale := 28/100, isSelected := false }
        = [DrawCmd.charm squareImg
            (charmRect (1/2) (1/2) (28/100) squareImg.width squareImg.height) false] := by
  have h := C9_charm_rect (1/2) (1/2) (28/100) 640 640 640 (by norm_num)
    [] (fun _ => some squareImg)
    { path := "charm.png", x := 1/2, y := 1/2, scale := 28/100, isSelected := false }
    squareImg
  exact ⟨h.1, h.2.2.2.2.1, h.2.2.2.2.2 rfl⟩

/-- C10: clicking a charm tile in the palette while in manual mode with
editing active appends one new item with the given fresh id at the
normalized center (0.5, 0.5) with scale 0.28 to the end of the list, so
it renders on top, and the fresh id keeps the id list duplicate-free;
the same click in the clean-preview sub-mode leaves the state
unchanged. -/
theorem C10_palette_click (s : State) (idx fid : Nat) :
    paletteClick s true idx fid
      = { s with manualItems := s.manualItems
            ++ [{ id := fid, charmIndex := idx, x := 1/2, y := 1/2, z := 28/100 }] }
    ∧ paletteClick s false idx fid = s
    ∧ (fid ∉ s.manualItems.map CharmItem.id →
        (s.manualItems.map CharmItem.id).Nodup →
        ((paletteClick s true idx fid).manualItems.map CharmItem.id).Nodup) := by
  refine ⟨rfl, rfl, ?_⟩
  intro h1 h2
  have hres : (paletteClick s true idx fid).manualItems
      = s.manualItems
        ++ [{ id := fid, charmIndex := idx, x := 1/2, y := 1/2, z := 28/100 }] := rfl
  rw [hres, List.map_append, List.nodup_append]
  refine ⟨h2, List.nodup_singleton _, ?_⟩
  intro a ha hmem
  simp only [List.map_cons, List.map_nil, List.mem_singleton] at hmem
  subst hmem
  exact h1 ha

/-- C10 witness: the statement at a concrete state with one item. -/
theorem C10_witness :
    paletteClick { sManualEmpty with manualItems := [item0] } true 2 7
      = { sManualEmpty with manualItems := [item0] ++
            [{ id := 7, charmIndex := 2, x := 1/2, y := 1/2, z := 28/100 }] }
    ∧ paletteClick { sManualEmpty with manualItems := [item0] } false 2 7
        = { sManualEmpty with manualItems := [item0] }
    ∧ ((paletteClick { sManualEmpty with manualItems := [item0] } true 2 7).manualItems.map
        CharmItem.id).Nodup := by
  have h := C10_palette_click { sManualEmpty with manualItems := [item0] } 2 7
  exact ⟨h.1, h.2.1, h.2.2 (by simp [item0]) (by simp)⟩

end Customizer
